import Mathlib

/-!
# Verification of the Syracuse water-service-lines dashboard

Shallow embedding of `src/service_lines.py`: the date normalizer
`convert_date`, the PTYPE strip / color-map pipeline, the year-range
filters for the map and bar chart, the bar-chart grouping, and the
slider bounds `min_year` / `max_year`.

Strings are modelled over their character lists.  Python's `str.isdigit`
accepts every character with the Unicode digit property, while `int()`
accepts only decimal digits (category `Nd`) — on digit-property-only
characters such as `'²'` (U+00B2) `isdigit` answers true yet `int`
raises `ValueError`, so `convert_date` is fallible and returns
`Except PyExn (Option Date)`.  Decimal digits are modelled by the ASCII
`'0'..'9'` of the dataset.  `pd.to_datetime` with `format="%m/%Y"` and
`errors='coerce'` is modelled after the `strptime` regex pandas vendors
from CPython: `%m` is `1[0-2]|0[1-9]|[1-9]` (literal ASCII classes),
`%Y` is exactly four `\d` (decimal) digits, the whole string must be
consumed, and an out-of-bounds `Timestamp` coerces to `NaT` (modelled
as `none`).
-/

set_option maxHeartbeats 1000000

deriving instance DecidableEq for Except

namespace ServiceLines

/-- An uncaught Python exception escaping the program. -/
inductive PyExn where
  | valueError
  deriving DecidableEq, Repr

/-- A normalized service-install date: the first day of `month` in `year`
(the `%m/%Y` parse fixes the day at 1). -/
structure Date where
  month : Nat
  year : Nat
  deriving DecidableEq, Repr

/-- Decimal-digit test (Unicode category `Nd`, here the ASCII `'0'..'9'` at
code points 48..57): the characters `int()` converts and the regex `\d`
matches. -/
def isDecimalChar (c : Char) : Bool := 48 ≤ c.toNat && c.toNat ≤ 57

/-- Characters carrying the Unicode digit property but no decimal value: on
these `str.isdigit` answers true while `int()` raises `ValueError`.  Modelled
by the superscript and subscript digits `¹ ² ³` (U+00B9, U+00B2, U+00B3),
`⁰` (U+2070), `⁴..⁹` (U+2074..U+2079) and `₀..₉` (U+2080..U+2089). -/
def isDigitOnlyChar (c : Char) : Bool :=
  c.toNat = 0xB9 || c.toNat = 0xB2 || c.toNat = 0xB3 || c.toNat = 0x2070 ||
  (0x2074 ≤ c.toNat && c.toNat ≤ 0x2079) || (0x2080 ≤ c.toNat && c.toNat ≤ 0x2089)

/-- Python's per-character `isdigit` test: decimal digits together with the
digit-property-only characters. -/
def isDigitChar (c : Char) : Bool := isDecimalChar c || isDigitOnlyChar c

/-- Python `s.isdigit()`: nonempty and all characters digits. -/
def pyIsDigit (l : List Char) : Bool := !l.isEmpty && l.all isDigitChar

/-- Numeric value of an all-decimal string: the value `int(...)` returns when
it succeeds (`monthIntRaises` below models when it instead raises). -/
def toNatDigits (l : List Char) : Nat := l.foldl (fun n c => n * 10 + (c.toNat - 48)) 0

/-- The `int(month)` call on line 23 raises `ValueError` exactly when the
short-circuit reaches it (`month.isdigit()` true) and some character of
`month` has no decimal value. -/
def monthIntRaises (month : List Char) : Bool :=
  pyIsDigit month && !(month.all isDecimalChar)

/-- Python `value.split("/")`. -/
def splitSlash : List Char → List (List Char)
  | [] => [[]]
  | c :: rest =>
    if c = '/' then [] :: splitSlash rest
    else
      match splitSlash rest with
      | [] => [[c]]
      | p :: ps => (c :: p) :: ps

/-- The character for a digit value below 10. -/
def digitChar (n : Nat) : Char := Char.ofNat (48 + n)

/-- Python `f"{m:02}"` for `m < 100`. -/
def pad2 (m : Nat) : List Char :=
  if m < 10 then ['0', digitChar m] else [digitChar (m / 10), digitChar (m % 10)]

/-- The `strptime` `%m` field: regex `1[0-2]|0[1-9]|[1-9]`, returning the
month value and the unconsumed remainder. -/
def readMonth : List Char → Option (Nat × List Char)
  | [] => none
  | [c] =>
    if c = '1' then some (1, [])
    else if c = '0' then none
    else if 49 ≤ c.toNat ∧ c.toNat ≤ 57 then some (c.toNat - 48, []) else none
  | c :: c2 :: rest =>
    if c = '1' then
      if c2 = '0' ∨ c2 = '1' ∨ c2 = '2' then some (10 + (c2.toNat - 48), rest)
      else some (1, c2 :: rest)
    else if c = '0' then
      if 49 ≤ c2.toNat ∧ c2.toNat ≤ 57 then some (c2.toNat - 48, rest) else none
    else if 49 ≤ c.toNat ∧ c.toNat ≤ 57 then some (c.toNat - 48, c2 :: rest) else none

/-- The `strptime` `%Y` field: exactly four `\d` (decimal) digits. -/
def read4Digits : List Char → Option (Nat × List Char)
  | a :: b :: c :: d :: rest =>
    if isDecimalChar a ∧ isDecimalChar b ∧ isDecimalChar c ∧ isDecimalChar d then
      some (toNatDigits [a, b, c, d], rest)
    else none
  | _ => none

/-- Whether the first-of-month date `year = y`, `month = m` is representable as
a pandas `Timestamp` (bounds 1677-09-21 .. 2262-04-11). -/
def tsInBounds (y m : Nat) : Bool :=
  (1678 ≤ y && y ≤ 2261) || (y == 1677 && 10 ≤ m) || (y == 2262 && m ≤ 4)

/-- `pd.to_datetime(s, format="%m/%Y", errors='coerce')`: match `%m`, a literal
`/`, `%Y`, require the whole string consumed; out-of-bounds coerces to `NaT`. -/
def parseMY (l : List Char) : Option Date :=
  match readMonth l with
  | none => none
  | some (m, rest) =>
    match rest with
    | [] => none
    | c :: rest2 =>
      if c = '/' then
        match read4Digits rest2 with
        | none => none
        | some (y, rest3) =>
          if rest3 = [] ∧ tsInBounds y m then some ⟨m, y⟩ else none
      else none

/-- The composed `f"{int(month):02}/{year}"` string of `convert_date`'s else
branch, as a total function of the input (junk when the guard fails). -/
def composedOf (value : String) : List Char :=
  let parts := splitSlash value.data
  let month := parts.getD 0 []
  let year := parts.getD 1 []
  let m := if pyIsDigit month ∧ 1 ≤ toNatDigits month ∧ toNatDigits month ≤ 12 then
    toNatDigits month else 1
  let year2 := if year.length = 3 then '1' :: '9' :: year.dropWhile (· = '0') else year
  pad2 m ++ '/' :: year2

/-- `convert_date` from `src/service_lines.py`: `NaT` is `none`; an uncaught
`ValueError` from `int(month)` on line 23 (reached when `month.isdigit()` is
true but a character has no decimal value) is `.error .valueError`. -/
def convert_date (value : String) : Except PyExn (Option Date) :=
  if value = "0/000" ∨ (splitSlash value.data).length ≠ 2 ∨
      ¬ pyIsDigit ((splitSlash value.data).getD 1 []) then
    .ok none
  else if monthIntRaises ((splitSlash value.data).getD 0 []) then
    .error .valueError
  else
    .ok (parseMY (composedOf value))

example : convert_date "02/2021" = .ok (some ⟨2, 2021⟩) := by decide
example : convert_date "5/987" = .ok none := by decide
example : convert_date "1/045" = .ok (some ⟨1, 1945⟩) := by decide
example : convert_date "13/2000" = .ok (some ⟨1, 2000⟩) := by decide
example : convert_date "5/000" = .ok none := by decide
example : convert_date "0/000" = .ok none := by decide
example : convert_date "5/87" = .ok none := by decide
example : convert_date "5/1987" = .ok (some ⟨5, 1987⟩) := by decide
example : convert_date "abc" = .ok none := by decide
example : convert_date "1/2/3" = .ok none := by decide
example : convert_date "x/2000" = .ok (some ⟨1, 2000⟩) := by decide
example : convert_date "1/0045" = .ok none := by decide
example : convert_date "²/2000" = .error .valueError := by decide
example : convert_date "₂/2000" = .error .valueError := by decide
example : convert_date "1²/2000" = .error .valueError := by decide
example : convert_date "1/²²²²" = .ok none := by decide
example : "13/2000" = String.mk ['1', '3', '/', '2', '0', '0', '0'] := rfl
example : " LEAD " = String.mk ([' '] ++ "LEAD".data ++ [' ']) := rfl
/-! ## Basic facts about the `%m/%Y` parser -/

theorem readMonth_bounds : ∀ {l : List Char} {m : Nat} {r : List Char},
    readMonth l = some (m, r) → 1 ≤ m ∧ m ≤ 12 := by
  intro l m r h
  match l with
  | [] => exact Option.noConfusion h
  | [c] =>
    simp only [readMonth] at h
    split_ifs at h with h1 h2 h3
    · simp only [Option.some.injEq, Prod.mk.injEq] at h
      obtain ⟨rfl, rfl⟩ := h
      omega
    · simp only [Option.some.injEq, Prod.mk.injEq] at h
      obtain ⟨rfl, rfl⟩ := h
      omega
  | c :: c2 :: rest =>
    simp only [readMonth] at h
    split_ifs at h with h1 h2 h3 h4
    · simp only [Option.some.injEq, Prod.mk.injEq] at h
      obtain ⟨rfl, rfl⟩ := h
      rcases h2 with rfl | rfl | rfl <;> decide
    · simp only [Option.some.injEq, Prod.mk.injEq] at h
      obtain ⟨rfl, rfl⟩ := h
      omega
    · simp only [Option.some.injEq, Prod.mk.injEq] at h
      obtain ⟨rfl, rfl⟩ := h
      omega
    · simp only [Option.some.injEq, Prod.mk.injEq] at h
      obtain ⟨rfl, rfl⟩ := h
      omega

theorem tsInBounds_year {y m : Nat} (h : tsInBounds y m = true) :
    1677 ≤ y ∧ y ≤ 2262 := by
  simp only [tsInBounds, Bool.or_eq_true, Bool.and_eq_true, decide_eq_true_eq,
    beq_iff_eq] at h
  omega

theorem parseMY_valid {l : List Char} {d : Date} (h : parseMY l = some d) :
    1 ≤ d.month ∧ d.month ≤ 12 ∧ 1677 ≤ d.year ∧ d.year ≤ 2262 ∧
      tsInBounds d.year d.month = true := by
  unfold parseMY at h
  cases hm : readMonth l with
  | none => rw [hm] at h; exact Option.noConfusion h
  | some p =>
    rw [hm] at h
    obtain ⟨m, rest⟩ := p
    match rest with
    | [] => exact Option.noConfusion h
    | c :: rest2 =>
      simp only at h
      split_ifs at h with hc
      cases hy : read4Digits rest2 with
      | none => rw [hy] at h; exact Option.noConfusion h
      | some q =>
        rw [hy] at h
        obtain ⟨y, rest3⟩ := q
        simp only at h
        split_ifs at h with hcond
        obtain ⟨-, hb⟩ := hcond
        obtain rfl := Option.some.inj h
        obtain ⟨hm1, hm2⟩ := readMonth_bounds hm
        obtain ⟨hy1, hy2⟩ := tsInBounds_year hb
        exact ⟨hm1, hm2, hy1, hy2, hb⟩

/-! ## Claims about the date normalizer -/

/-- C1: the claim "no exception escapes on any input" fails on the code.  On
`"²/2000"` the guard passes (`"2000".isdigit()`), the month check evaluates
`int("²")` because `"²".isdigit()` is true, and `int` raises an uncaught
`ValueError` — superscript two has the digit property but no decimal value.
The plain ASCII month `"2"` shows the intended path.  (Every evaluation that
does return yields the marker or a valid date; the slip is the raise.) -/
theorem convert_date_value_error :
    convert_date "²/2000" = .error .valueError ∧
      convert_date "2/2000" = .ok (some ⟨2, 2000⟩) ∧
      pyIsDigit ['²'] = true ∧ ['²'].all isDecimalChar = false := by decide

/-- Every result `convert_date` actually returns (no raise) is the missing
marker or a valid first-of-month date with month in `[1,12]` and a
`Timestamp`-representable year. -/
theorem convert_date_ok_valid (s : String) (r : Option Date)
    (h : convert_date s = .ok r) :
    r = none ∨
      ∃ d, r = some d ∧ 1 ≤ d.month ∧ d.month ≤ 12 ∧
        1677 ≤ d.year ∧ d.year ≤ 2262 := by
  unfold convert_date at h
  split_ifs at h with h1 h2
  · exact Or.inl (Except.ok.inj h).symm
  · have hr := (Except.ok.inj h).symm
    cases hp : parseMY (composedOf s) with
    | none => exact Or.inl (hr.trans hp)
    | some d =>
      obtain ⟨hm1, hm2, hy1, hy2, -⟩ := parseMY_valid hp
      exact Or.inr ⟨d, hr.trans hp, hm1, hm2, hy1, hy2⟩

/-- C2: evaluation at the failing input `"5/987"`.  The code composes the year
string `"19" ++ "987"` = `"19987"` (stripping leading zeros leaves `"987"`
unchanged), a five-digit year that the `%m/%Y` parse rejects, so the result is
the missing marker — not May 1987 as the claim (and the code's own comment
about assuming 1900s years) states.  Leading-zero three-digit years such as
`"045"` do work (`"1/045"` gives January 1945). -/
theorem convert_date_5_987 :
    convert_date "5/987" = .ok none ∧
      composedOf "5/987" = ['0', '5', '/', '1', '9', '9', '8', '7'] ∧
      convert_date "1/045" = .ok (some ⟨1, 1945⟩) := by decide

/-- C3: every evaluation of `convert_date` that returns (the raising inputs of
C1 return nothing) yields the missing marker exactly when the input is the
sentinel `"0/000"`, or splitting on `/` does not give exactly two parts, or
the part after the separator is not all digits, or the final `%m/%Y` parse of
the composed string fails. -/
theorem convert_date_none_iff (s : String) (r : Option Date)
    (h : convert_date s = .ok r) :
    r = none ↔
      s = "0/000" ∨ (splitSlash s.data).length ≠ 2 ∨
        ¬ pyIsDigit ((splitSlash s.data).getD 1 []) ∨
        parseMY (composedOf s) = none := by
  unfold convert_date at h
  split_ifs at h with h1 h2
  · obtain rfl := (Except.ok.inj h).symm
    refine iff_of_true rfl ?_
    rcases h1 with h | h | h
    · exact Or.inl h
    · exact Or.inr (Or.inl h)
    · exact Or.inr (Or.inr (Or.inl h))
  · have hr : parseMY (composedOf s) = r := Except.ok.inj h
    constructor
    · intro hnone
      exact Or.inr (Or.inr (Or.inr (hr.trans hnone)))
    · intro hor
      rcases hor with hc | hc | hc | hc
      · exact absurd (Or.inl hc) h1
      · exact absurd (Or.inr (Or.inl hc)) h1
      · exact absurd (Or.inr (Or.inr hc)) h1
      · exact hr.symm.trans hc

/-- Witness for C3 at `"5/87"` (two-digit year, so the `%Y` parse fails and
the completed evaluation returns the marker). -/
theorem convert_date_none_iff_witness :
    convert_date "5/87" = .ok (none : Option Date) ∧
      ((none : Option Date) = none ↔
        "5/87" = "0/000" ∨ (splitSlash "5/87".data).length ≠ 2 ∨
          ¬ pyIsDigit ((splitSlash "5/87".data).getD 1 []) ∨
          parseMY (composedOf "5/87") = none) :=
  ⟨by decide, convert_date_none_iff "5/87" none (by decide)⟩

/-- C5: on `"5/000"` the three-digit year `"000"` strips to the empty string,
the composed value is the malformed `"05/19"`, and the result is
deterministically the missing-value marker. -/
theorem convert_date_5_000 :
    convert_date "5/000" = .ok none ∧ composedOf "5/000" = ['0', '5', '/', '1', '9'] := by
  decide

/-! ## Splitting lemmas -/

theorem splitSlash_noSlash {l : List Char} (h : '/' ∉ l) : splitSlash l = [l] := by
  induction l with
  | nil => rfl
  | cons c rest ih =>
    have hc : ¬ c = '/' := fun hc => h (hc ▸ List.mem_cons_self c rest)
    have hr : '/' ∉ rest := fun hr => h (List.mem_cons_of_mem c hr)
    simp only [splitSlash, if_neg hc, ih hr]

theorem splitSlash_append {a b : List Char} (ha : '/' ∉ a) (hb : '/' ∉ b) :
    splitSlash (a ++ '/' :: b) = [a, b] := by
  induction a with
  | nil => simp [splitSlash, splitSlash_noSlash hb]
  | cons c rest ih =>
    have hc : ¬ c = '/' := fun hc => ha (hc ▸ List.mem_cons_self c rest)
    have hr : '/' ∉ rest := fun hr => ha (List.mem_cons_of_mem c hr)
    simp only [List.cons_append, splitSlash, if_neg hc]
    rw [show splitSlash (rest.append ('/' :: b)) = [rest, b] from ih hr]

/-- C4: on inputs `month/year` that pass the split-and-digit-year guard, an
invalid month part — not all digits, or an integer value (when `int` has one,
i.e. the digits are decimal) outside `[1,12]` — is discarded and replaced by
January (`"01"`); in particular `"13/2000"` gives January 1, 2000. -/
theorem convert_date_invalid_month :
    (∀ mS yS : List Char, '/' ∉ mS → '/' ∉ yS →
      pyIsDigit yS = true →
      String.mk (mS ++ '/' :: yS) ≠ "0/000" →
      (¬ pyIsDigit mS = true ∨
        (mS.all isDecimalChar = true ∧
          ¬ (1 ≤ toNatDigits mS ∧ toNatDigits mS ≤ 12))) →
      convert_date ⟨mS ++ '/' :: yS⟩ = convert_date ⟨'0' :: '1' :: '/' :: yS⟩) ∧
    convert_date "13/2000" = .ok (some ⟨1, 2000⟩) := by
  constructor
  · intro mS yS hm hy hyd hsent hbad
    have hsplit : splitSlash (mS ++ '/' :: yS) = [mS, yS] := splitSlash_append hm hy
    have hsplit2 : splitSlash ('0' :: '1' :: '/' :: yS) = [['0', '1'], yS] :=
      splitSlash_append (a := ['0', '1']) (by decide) hy
    have hsent2 : String.mk ('0' :: '1' :: '/' :: yS) ≠ "0/000" := by
      intro hcontra
      have h2 := congrArg String.data hcontra
      injection h2 with h3 h4
      injection h4 with h5 h6
      exact absurd h5 (by decide)
    have hraiseL : monthIntRaises mS = false := by
      rcases hbad with hb | hb
      · have hfalse : pyIsDigit mS = false := by
          revert hb
          cases pyIsDigit mS <;> simp
        simp [monthIntRaises, hfalse]
      · simp [monthIntRaises, hb.1]
    have hbad2 : ¬ (pyIsDigit mS = true ∧ 1 ≤ toNatDigits mS ∧ toNatDigits mS ≤ 12) := by
      rcases hbad with hb | hb
      · intro hcon
        exact hb hcon.1
      · intro hcon
        exact hb.2 ⟨hcon.2.1, hcon.2.2⟩
    have hcompL : composedOf ⟨mS ++ '/' :: yS⟩ =
        pad2 1 ++ '/' ::
          (if yS.length = 3 then '1' :: '9' :: yS.dropWhile (· = '0') else yS) := by
      simp only [composedOf, hsplit, List.getD_cons_zero, List.getD_cons_succ]
      rw [if_neg hbad2]
    have hcompR : composedOf ⟨'0' :: '1' :: '/' :: yS⟩ =
        pad2 1 ++ '/' ::
          (if yS.length = 3 then '1' :: '9' :: yS.dropWhile (· = '0') else yS) := by
      simp only [composedOf, hsplit2, List.getD_cons_zero, List.getD_cons_succ]
      rw [if_pos (by decide)]
      norm_num [show toNatDigits ['0', '1'] = 1 from by decide]
    have hcondL : ¬ (String.mk (mS ++ '/' :: yS) = "0/000" ∨
        (splitSlash (String.mk (mS ++ '/' :: yS)).data).length ≠ 2 ∨
        ¬ pyIsDigit ((splitSlash (String.mk (mS ++ '/' :: yS)).data).getD 1 [])) := by
      intro hor
      rcases hor with h1 | h1 | h1
      · exact hsent h1
      · rw [show (String.mk (mS ++ '/' :: yS)).data = mS ++ '/' :: yS from rfl,
            hsplit] at h1
        exact h1 rfl
      · rw [show (String.mk (mS ++ '/' :: yS)).data = mS ++ '/' :: yS from rfl,
            hsplit] at h1
        exact h1 hyd
    have hcondR : ¬ (String.mk ('0' :: '1' :: '/' :: yS) = "0/000" ∨
        (splitSlash (String.mk ('0' :: '1' :: '/' :: yS)).data).length ≠ 2 ∨
        ¬ pyIsDigit ((splitSlash (String.mk ('0' :: '1' :: '/' :: yS)).data).getD 1 [])) := by
      intro hor
      rcases hor with h1 | h1 | h1
      · exact hsent2 h1
      · rw [show (String.mk ('0' :: '1' :: '/' :: yS)).data = '0' :: '1' :: '/' :: yS
            from rfl, hsplit2] at h1
        exact h1 rfl
      · rw [show (String.mk ('0' :: '1' :: '/' :: yS)).data = '0' :: '1' :: '/' :: yS
            from rfl, hsplit2] at h1
        exact h1 hyd
    have hcondL2 : ¬ (monthIntRaises
        ((splitSlash (String.mk (mS ++ '/' :: yS)).data).getD 0 []) = true) := by
      rw [show (String.mk (mS ++ '/' :: yS)).data = mS ++ '/' :: yS from rfl, hsplit]
      simp [List.getD_cons_zero, hraiseL]
    have hcondR2 : ¬ (monthIntRaises
        ((splitSlash (String.mk ('0' :: '1' :: '/' :: yS)).data).getD 0 []) = true) := by
      rw [show (String.mk ('0' :: '1' :: '/' :: yS)).data = '0' :: '1' :: '/' :: yS
        from rfl, hsplit2]
      simp only [List.getD_cons_zero]
      decide
    unfold convert_date
    rw [if_neg hcondL, if_neg hcondL2, if_neg hcondR, if_neg hcondR2, hcompL, hcompR]
  · decide

/-- Witness for C4 at the concrete input `"13/2000"`. -/
theorem convert_date_invalid_month_witness :
    convert_date "13/2000" = convert_date "01/2000" :=
  convert_date_invalid_month.1 ['1', '3'] ['2', '0', '0', '0']
    (by decide) (by decide) (by decide) (by decide) (by decide)

/-! ## Round-tripping a normalized date through the `%m/%Y` format -/

/-- The four decimal digits of a year below 10000, most significant first. -/
def digits4 (y : Nat) : List Char :=
  [digitChar (y / 1000), digitChar (y / 100 % 10), digitChar (y / 10 % 10),
    digitChar (y % 10)]

/-- A normalized date rendered back in the same `%m/%Y` string format that
`convert_date` itself composes and parses. -/
def renderDate (d : Date) : String := ⟨pad2 d.month ++ '/' :: digits4 d.year⟩

theorem digitChar_toNat {n : Nat} (h : n < 10) : (digitChar n).toNat = 48 + n := by
  interval_cases n <;> decide

theorem isDecimalChar_digitChar {n : Nat} (h : n < 10) :
    isDecimalChar (digitChar n) = true := by
  interval_cases n <;> decide

theorem isDigitChar_digitChar {n : Nat} (h : n < 10) : isDigitChar (digitChar n) = true := by
  interval_cases n <;> decide

theorem digitChar_ne_slash {n : Nat} (h : n < 10) : digitChar n ≠ '/' := by
  interval_cases n <;> decide

theorem pad2_length (m : Nat) : (pad2 m).length = 2 := by
  unfold pad2; split <;> rfl

theorem slash_not_mem_pad2 {m : Nat} (h2 : m ≤ 12) : '/' ∉ pad2 m := by
  unfold pad2
  split_ifs with hlt
  · intro hmem
    simp only [List.mem_cons, List.not_mem_nil, or_false] at hmem
    rcases hmem with h | h
    · exact absurd h (by decide)
    · exact absurd h.symm (digitChar_ne_slash hlt)
  · intro hmem
    simp only [List.mem_cons, List.not_mem_nil, or_false] at hmem
    rcases hmem with h | h
    · exact absurd h.symm (digitChar_ne_slash (by omega))
    · exact absurd h.symm (digitChar_ne_slash (by omega))

theorem pyIsDigit_pad2 {m : Nat} (h2 : m ≤ 12) : pyIsDigit (pad2 m) = true := by
  unfold pad2
  split_ifs with hlt
  · simp [pyIsDigit, isDigitChar_digitChar hlt,
      show isDigitChar '0' = true from by decide]
  · simp [pyIsDigit, isDigitChar_digitChar (show m / 10 < 10 by omega),
      isDigitChar_digitChar (show m % 10 < 10 by omega)]

theorem allDecimal_pad2 {m : Nat} (h2 : m ≤ 12) : (pad2 m).all isDecimalChar = true := by
  unfold pad2
  split_ifs with hlt
  · simp [isDecimalChar_digitChar hlt, show isDecimalChar '0' = true from by decide]
  · simp [isDecimalChar_digitChar (show m / 10 < 10 by omega),
      isDecimalChar_digitChar (show m % 10 < 10 by omega)]

theorem monthIntRaises_pad2 {m : Nat} (h2 : m ≤ 12) : monthIntRaises (pad2 m) = false := by
  simp [monthIntRaises, allDecimal_pad2 h2]

theorem toNatDigits_pad2 {m : Nat} (h2 : m ≤ 12) : toNatDigits (pad2 m) = m := by
  unfold pad2
  split_ifs with hlt
  · simp only [toNatDigits, List.foldl]
    rw [show ('0'.toNat : Nat) = 48 from rfl, digitChar_toNat hlt]
    omega
  · simp only [toNatDigits, List.foldl]
    rw [digitChar_toNat (show m / 10 < 10 by omega),
      digitChar_toNat (show m % 10 < 10 by omega)]
    omega

theorem readMonth_pad2 {m : Nat} (h1 : 1 ≤ m) (h2 : m ≤ 12) (l : List Char) :
    readMonth (pad2 m ++ l) = some (m, l) := by
  by_cases hlt : m < 10
  · rw [show pad2 m = ['0', digitChar m] from if_pos hlt]
    have hstep : readMonth ('0' :: digitChar m :: l) =
        if 49 ≤ (digitChar m).toNat ∧ (digitChar m).toNat ≤ 57 then
          some ((digitChar m).toNat - 48, l)
        else none := rfl
    show readMonth ('0' :: digitChar m :: l) = some (m, l)
    rw [hstep, if_pos (by rw [digitChar_toNat hlt]; omega), digitChar_toNat hlt]
    simp only [Option.some.injEq, Prod.mk.injEq]
    exact ⟨by omega, by simp⟩
  · interval_cases m
    · exact rfl
    · exact rfl
    · exact rfl

theorem pyIsDigit_digits4 {y : Nat} (h : y < 10000) : pyIsDigit (digits4 y) = true := by
  simp [pyIsDigit, digits4, isDigitChar_digitChar (show y / 1000 < 10 by omega),
    isDigitChar_digitChar (show y / 100 % 10 < 10 by omega),
    isDigitChar_digitChar (show y / 10 % 10 < 10 by omega),
    isDigitChar_digitChar (show y % 10 < 10 by omega)]

theorem slash_not_mem_digits4 {y : Nat} (h : y < 10000) : '/' ∉ digits4 y := by
  intro hmem
  simp only [digits4, List.mem_cons, List.not_mem_nil, or_false] at hmem
  rcases hmem with h1 | h1 | h1 | h1
  · exact absurd h1.symm (digitChar_ne_slash (by omega))
  · exact absurd h1.symm (digitChar_ne_slash (by omega))
  · exact absurd h1.symm (digitChar_ne_slash (by omega))
  · exact absurd h1.symm (digitChar_ne_slash (by omega))

theorem read4Digits_digits4 {y : Nat} (h : y < 10000) :
    read4Digits (digits4 y) = some (y, []) := by
  simp only [digits4, read4Digits]
  rw [if_pos ⟨isDecimalChar_digitChar (show y / 1000 < 10 by omega),
    isDecimalChar_digitChar (show y / 100 % 10 < 10 by omega),
    isDecimalChar_digitChar (show y / 10 % 10 < 10 by omega),
    isDecimalChar_digitChar (show y % 10 < 10 by omega)⟩]
  simp only [toNatDigits, List.foldl]
  rw [digitChar_toNat (show y / 1000 < 10 by omega),
    digitChar_toNat (show y / 100 % 10 < 10 by omega),
    digitChar_toNat (show y / 10 % 10 < 10 by omega),
    digitChar_toNat (show y % 10 < 10 by omega)]
  simp only [Option.some.injEq, Prod.mk.injEq]
  refine ⟨by omega, ?_⟩
  simp

theorem parseMY_pad2_digits4 {m y : Nat} (h1 : 1 ≤ m) (h2 : m ≤ 12)
    (hb : tsInBounds y m = true) :
    parseMY (pad2 m ++ '/' :: digits4 y) = some ⟨m, y⟩ := by
  have hy : y < 10000 := by
    have := tsInBounds_year hb
    omega
  unfold parseMY
  rw [readMonth_pad2 h1 h2 ('/' :: digits4 y)]
  simp [read4Digits_digits4 hy, hb]

theorem convert_date_renderDate (d : Date) (h1 : 1 ≤ d.month) (h2 : d.month ≤ 12)
    (hb : tsInBounds d.year d.month = true) :
    convert_date (renderDate d) = .ok (some d) := by
  have hy : d.year < 10000 := by
    have := tsInBounds_year hb
    omega
  have hsplit : splitSlash (pad2 d.month ++ '/' :: digits4 d.year) =
      [pad2 d.month, digits4 d.year] :=
    splitSlash_append (slash_not_mem_pad2 h2) (slash_not_mem_digits4 hy)
  have hguard : ¬ (String.mk (pad2 d.month ++ '/' :: digits4 d.year) = "0/000" ∨
      (splitSlash (String.mk (pad2 d.month ++ '/' :: digits4 d.year)).data).length ≠ 2 ∨
      ¬ pyIsDigit ((splitSlash
        (String.mk (pad2 d.month ++ '/' :: digits4 d.year)).data).getD 1 [])) := by
    intro hor
    rcases hor with hc | hc | hc
    · have hdata := congrArg String.data hc
      have hlen := congrArg List.length hdata
      simp only [List.length_append, pad2_length, List.length_cons] at hlen
      simp [digits4] at hlen
    · rw [show (String.mk (pad2 d.month ++ '/' :: digits4 d.year)).data =
          pad2 d.month ++ '/' :: digits4 d.year from rfl, hsplit] at hc
      exact hc rfl
    · rw [show (String.mk (pad2 d.month ++ '/' :: digits4 d.year)).data =
          pad2 d.month ++ '/' :: digits4 d.year from rfl, hsplit] at hc
      exact hc (pyIsDigit_digits4 hy)
  have hnoraise : ¬ (monthIntRaises ((splitSlash
      (String.mk (pad2 d.month ++ '/' :: digits4 d.year)).data).getD 0 []) = true) := by
    rw [show (String.mk (pad2 d.month ++ '/' :: digits4 d.year)).data =
      pad2 d.month ++ '/' :: digits4 d.year from rfl, hsplit]
    simp [List.getD_cons_zero, monthIntRaises_pad2 h2]
  unfold convert_date renderDate
  rw [if_neg hguard, if_neg hnoraise]
  have hcomp : composedOf ⟨pad2 d.month ++ '/' :: digits4 d.year⟩ =
      pad2 d.month ++ '/' :: digits4 d.year := by
    simp only [composedOf,
      show (String.mk (pad2 d.month ++ '/' :: digits4 d.year)).data =
        pad2 d.month ++ '/' :: digits4 d.year from rfl,
      hsplit, List.getD_cons_zero, List.getD_cons_succ]
    rw [if_pos ⟨pyIsDigit_pad2 h2, by rw [toNatDigits_pad2 h2]; exact ⟨h1, h2⟩⟩]
    rw [toNatDigits_pad2 h2]
    rw [if_neg (by simp [digits4])]
  rw [hcomp, parseMY_pad2_digits4 h1 h2 hb]

/-- C6: normalization is idempotent through the string format — if
`convert_date s` returns a valid date `d`, rendering `d` back in the same
`%m/%Y` month/year format and normalizing again returns the same `d`. -/
theorem convert_date_roundtrip (s : String) (d : Date)
    (h : convert_date s = .ok (some d)) :
    convert_date (renderDate d) = .ok (some d) := by
  unfold convert_date at h
  split_ifs at h with hg hr
  · exact Option.noConfusion (Except.ok.inj h)
  · have hv := parseMY_valid (Except.ok.inj h)
    exact convert_date_renderDate d hv.1 hv.2.1 hv.2.2.2.2

/-- Witness for C6 at `"02/2021"` (February 2021). -/
theorem convert_date_roundtrip_witness :
    convert_date (renderDate ⟨2, 2021⟩) = .ok (some ⟨2, 2021⟩) :=
  convert_date_roundtrip "02/2021" ⟨2, 2021⟩ (by decide)

/-! ## The dataset model -/

/-- A raw record of `Water_Services.csv` (the string fields the dashboard
reads; the numeric `X`/`Y` coordinates only feed the map rendering and are
not needed by any claim). -/
structure Record where
  SERV_INSTALL : String
  PTYPE : String
  TAP_ADDRESS : String
  STYP : String
  deriving DecidableEq, Repr

/-- The whitespace characters removed by Python `str.strip()` (ASCII range). -/
def isSpaceChar (c : Char) : Bool :=
  c = ' ' ∨ c = '\t' ∨ c = '\n' ∨ c = '\r' ∨ c = '\x0b' ∨ c = '\x0c'

/-- `str.strip()` on the character list: drop whitespace from both ends. -/
def stripList (l : List Char) : List Char :=
  ((l.dropWhile isSpaceChar).reverse.dropWhile isSpaceChar).reverse

/-- Python `s.strip()`. -/
def pyStrip (s : String) : String := ⟨stripList s.data⟩

/-- The `color_map` dict of `service_lines.py` (RGBA per material type). -/
def color_map : List (String × List Nat) :=
  [("COPPER", [255, 0, 0, 160]),
   ("LEAD", [128, 0, 128, 160]),
   ("OTHER", [128, 128, 128, 160]),
   ("GAL.IRON", [0, 128, 128, 160]),
   ("CAST IRON", [255, 165, 0, 160]),
   ("DUCTILE", [0, 0, 255, 160]),
   ("PVC", [0, 128, 0, 160])]

/-- `Series.map(color_map)`: dict lookup, missing (`NaN`) when absent. -/
def lookupColor (s : String) : Option (List Nat) :=
  (color_map.find? (fun p => p.1 == s)).map (fun p => p.2)

/-- A normalized record, after lines 35-36 and 57 of the source: the derived
`service_install_date`, the stripped `PTYPE`, and the mapped `color`. -/
structure NormRecord where
  raw : Record
  service_install_date : Option Date
  PTYPE : String
  color : Option (List Nat)
  deriving DecidableEq, Repr

/-- The load-then-transform pipeline applied to one record: line 35 applies
`convert_date` (a raise there crashes the whole load, so the normalized record
exists only when it returns), then line 36 strips `PTYPE` and line 57 maps the
color from the stripped `PTYPE`. -/
def normalize (r : Record) : Except PyExn NormRecord :=
  match convert_date r.SERV_INSTALL with
  | .error e => .error e
  | .ok d =>
    .ok { raw := r
          service_install_date := d
          PTYPE := pyStrip r.PTYPE
          color := lookupColor (pyStrip r.PTYPE) }

/-- `service_install_date.dt.year >= lo` / `<= hi`: any year comparison
against the missing marker (`NaT`) is false. -/
def inYearRange (d : Option Date) (lo hi : Nat) : Bool :=
  match d with
  | some dd => lo ≤ dd.year && dd.year ≤ hi
  | none => false

/-- Lines 85-86: the map's year-range filter. -/
def filtered_data (rows : List NormRecord) (lo hi : Nat) : List NormRecord :=
  rows.filter (fun r => inYearRange r.service_install_date lo hi)

/-- Lines 130-131: the bar chart's year-range filter (the same predicate on
the same normalized table). -/
def bar_data (rows : List NormRecord) (lo hi : Nat) : List NormRecord :=
  rows.filter (fun r => inYearRange r.service_install_date lo hi)

/-- The `groupby` key of line 134: (install year, material category). -/
def groupKey (r : NormRecord) : Option Nat × String :=
  (r.service_install_date.map Date.year, r.PTYPE)

/-- Line 134: `bar_data.groupby([..year, 'PTYPE']).size()` — one entry per
distinct (year, PTYPE) key, holding the number of rows with that key. -/
def yearly_counts (rows : List NormRecord) (lo hi : Nat) :
    List ((Option Nat × String) × Nat) :=
  ((bar_data rows lo hi).map groupKey).dedup.map
    (fun k => (k, ((bar_data rows lo hi).map groupKey).countP (fun x => decide (x = k))))

/-- C7: for every inclusive year range `[lo, hi]`, both the map filter and
the bar-chart filter keep exactly the records whose normalized date is a
valid date with year in the range; records carrying the missing marker are
excluded from both. -/
theorem filtered_data_mem (rows : List NormRecord) (lo hi : Nat) (r : NormRecord) :
    (r ∈ filtered_data rows lo hi ↔
      r ∈ rows ∧ ∃ y, r.service_install_date.map Date.year = some y ∧
        lo ≤ y ∧ y ≤ hi) ∧
    (r ∈ bar_data rows lo hi ↔
      r ∈ rows ∧ ∃ y, r.service_install_date.map Date.year = some y ∧
        lo ≤ y ∧ y ≤ hi) ∧
    (r.service_install_date = none →
      r ∉ filtered_data rows lo hi ∧ r ∉ bar_data rows lo hi) := by
  have key : ∀ rr : NormRecord, (inYearRange rr.service_install_date lo hi = true) =
      (∃ y, rr.service_install_date.map Date.year = some y ∧ lo ≤ y ∧ y ≤ hi) := by
    intro rr
    apply propext
    cases hd : rr.service_install_date with
    | none => simp [inYearRange]
    | some dd => simp [inYearRange]
  refine ⟨?_, ?_, ?_⟩
  · simp only [filtered_data, List.mem_filter, key r]
  · simp only [bar_data, List.mem_filter, key r]
  · intro hnone
    constructor
    · simp [filtered_data, List.mem_filter, inYearRange, hnone]
    · simp [bar_data, List.mem_filter, inYearRange, hnone]

/-- A record whose install date is the missing marker, for the C7 witness. -/
def noneRecord : NormRecord :=
  { raw := { SERV_INSTALL := "0/000", PTYPE := "LEAD", TAP_ADDRESS := "", STYP := "" }
    service_install_date := none
    PTYPE := "LEAD"
    color := some [128, 0, 128, 160] }

/-- Witness for C7: a record with a missing date is excluded from both views. -/
theorem filtered_data_mem_witness :
    noneRecord ∉ filtered_data [noneRecord] 1950 1960 ∧
      noneRecord ∉ bar_data [noneRecord] 1950 1960 :=
  (filtered_data_mem [noneRecord] 1950 1960 noneRecord).2.2 rfl

/-- C8: the bar-chart grouping partitions the filtered records — the
per-(year, category) counts sum to the number of filtered records. -/
theorem yearly_counts_total (rows : List NormRecord) (lo hi : Nat) :
    ((yearly_counts rows lo hi).map Prod.snd).sum = (bar_data rows lo hi).length := by
  unfold yearly_counts
  rw [List.map_map]
  have h := List.sum_map_count_dedup_eq_length ((bar_data rows lo hi).map groupKey)
  rw [List.length_map] at h
  have hfun : (Prod.snd ∘ fun k : Option Nat × String =>
      (k, ((bar_data rows lo hi).map groupKey).countP (fun x => decide (x = k)))) =
      fun k => ((bar_data rows lo hi).map groupKey).countP (fun x => decide (x = k)) := rfl
  rw [hfun]
  exact h

/-! ## Slider bounds -/

/-- `.dt.year` over records with a valid date (`Series.min`/`.max` skip `NaT`). -/
def validYears (rows : List NormRecord) : List Nat :=
  rows.filterMap (fun r => r.service_install_date.map Date.year)

/-- Line 78: `int(gdf['service_install_date'].dt.year.min())`; `none` models
the undefined `int(nan)` on a dataset with no valid date. -/
def min_year (rows : List NormRecord) : Option Nat :=
  match validYears rows with
  | [] => none
  | y :: ys => some (ys.foldl min y)

/-- Line 79: `int(gdf['service_install_date'].dt.year.max())`. -/
def max_year (rows : List NormRecord) : Option Nat :=
  match validYears rows with
  | [] => none
  | y :: ys => some (ys.foldl max y)

theorem foldl_min_mem (ys : List Nat) (y : Nat) : ys.foldl min y ∈ y :: ys := by
  induction ys generalizing y with
  | nil => exact List.mem_cons_self y []
  | cons z zs ih =>
    have hstep : (z :: zs).foldl min y = zs.foldl min (min y z) := rfl
    rw [hstep]
    have h := ih (min y z)
    have hchoice : min y z = y ∨ min y z = z := by omega
    rcases List.mem_cons.mp h with h1 | h1
    · rw [h1]
      rcases hchoice with hc | hc
      · rw [hc]; exact List.mem_cons_self _ _
      · rw [hc]; exact List.mem_cons_of_mem _ (List.mem_cons_self _ _)
    · exact List.mem_cons_of_mem _ (List.mem_cons_of_mem _ h1)

theorem foldl_min_le (ys : List Nat) (y : Nat) :
    ∀ z ∈ y :: ys, ys.foldl min y ≤ z := by
  induction ys generalizing y with
  | nil =>
    intro z hz
    rcases List.mem_cons.mp hz with rfl | h1
    · exact Nat.le_refl _
    · exact absurd h1 (List.not_mem_nil z)
  | cons w ws ih =>
    intro z hz
    have hstep : (w :: ws).foldl min y = ws.foldl min (min y w) := rfl
    rw [hstep]
    have hbase := ih (min y w) (min y w) (List.mem_cons_self _ _)
    rcases List.mem_cons.mp hz with rfl | h1
    · exact Nat.le_trans hbase (by omega)
    · rcases List.mem_cons.mp h1 with rfl | h2
      · exact Nat.le_trans hbase (by omega)
      · exact ih (min y w) z (List.mem_cons_of_mem _ h2)

theorem foldl_max_mem (ys : List Nat) (y : Nat) : ys.foldl max y ∈ y :: ys := by
  induction ys generalizing y with
  | nil => exact List.mem_cons_self y []
  | cons z zs ih =>
    have hstep : (z :: zs).foldl max y = zs.foldl max (max y z) := rfl
    rw [hstep]
    have h := ih (max y z)
    have hchoice : max y z = y ∨ max y z = z := by omega
    rcases List.mem_cons.mp h with h1 | h1
    · rw [h1]
      rcases hchoice with hc | hc
      · rw [hc]; exact List.mem_cons_self _ _
      · rw [hc]; exact List.mem_cons_of_mem _ (List.mem_cons_self _ _)
    · exact List.mem_cons_of_mem _ (List.mem_cons_of_mem _ h1)

theorem foldl_max_ge (ys : List Nat) (y : Nat) :
    ∀ z ∈ y :: ys, z ≤ ys.foldl max y := by
  induction ys generalizing y with
  | nil =>
    intro z hz
    rcases List.mem_cons.mp hz with rfl | h1
    · exact Nat.le_refl _
    · exact absurd h1 (List.not_mem_nil z)
  | cons w ws ih =>
    intro z hz
    have hstep : (w :: ws).foldl max y = ws.foldl max (max y w) := rfl
    rw [hstep]
    have hbase := ih (max y w) (max y w) (List.mem_cons_self _ _)
    rcases List.mem_cons.mp hz with rfl | h1
    · exact Nat.le_trans (by omega) hbase
    · rcases List.mem_cons.mp h1 with rfl | h2
      · exact Nat.le_trans (by omega) hbase
      · exact ih (max y w) z (List.mem_cons_of_mem _ h2)

/-- C10: the slider bounds are well defined exactly under the unstated
precondition that some record has a valid normalized date: then `min_year`
and `max_year` are the least and greatest install years over valid dates
(with `min_year ≤ max_year`); with no valid date the computation has no
defined result. -/
theorem year_bounds (rows : List NormRecord) :
    ((∃ r ∈ rows, ∃ d, r.service_install_date = some d) →
      ∃ a b, min_year rows = some a ∧ max_year rows = some b ∧
        a ∈ validYears rows ∧ b ∈ validYears rows ∧
        (∀ y ∈ validYears rows, a ≤ y ∧ y ≤ b) ∧ a ≤ b) ∧
    (validYears rows = [] → min_year rows = none ∧ max_year rows = none) := by
  constructor
  · intro hex
    obtain ⟨r, hr, d, hd⟩ := hex
    have hmem : d.year ∈ validYears rows := by
      simp only [validYears, List.mem_filterMap]
      exact ⟨r, hr, by rw [hd]; rfl⟩
    cases hv : validYears rows with
    | nil => rw [hv] at hmem; exact absurd hmem (List.not_mem_nil _)
    | cons y ys =>
      refine ⟨ys.foldl min y, ys.foldl max y, ?_, ?_, ?_, ?_, ?_, ?_⟩
      · simp [min_year, hv]
      · simp [max_year, hv]
      · exact foldl_min_mem ys y
      · exact foldl_max_mem ys y
      · intro z hz
        exact ⟨foldl_min_le ys y z hz, foldl_max_ge ys y z hz⟩
      · exact Nat.le_trans (foldl_min_le ys y y (List.mem_cons_self _ _))
          (foldl_max_ge ys y y (List.mem_cons_self _ _))
  · intro hv
    constructor
    · simp [min_year, hv]
    · simp [max_year, hv]

/-- A record with a valid May 1950 date, for the C10 witness. -/
def earlyRecord : NormRecord :=
  { raw := { SERV_INSTALL := "5/1950", PTYPE := "COPPER", TAP_ADDRESS := "", STYP := "" }
    service_install_date := some ⟨5, 1950⟩
    PTYPE := "COPPER"
    color := some [255, 0, 0, 160] }

/-- A record with a valid March 2025 date, for the C10 witness. -/
def lateRecord : NormRecord :=
  { raw := { SERV_INSTALL := "3/2025", PTYPE := "PVC", TAP_ADDRESS := "", STYP := "" }
    service_install_date := some ⟨3, 2025⟩
    PTYPE := "PVC"
    color := some [0, 128, 0, 160] }

/-- Witness for C10 on a dataset with valid dates 1950 and 2025 and one
missing date. -/
theorem year_bounds_witness :
    (∃ r ∈ [earlyRecord, noneRecord, lateRecord], ∃ d, r.service_install_date = some d) ∧
      ∃ a b, min_year [earlyRecord, noneRecord, lateRecord] = some a ∧
        max_year [earlyRecord, noneRecord, lateRecord] = some b ∧
        a ∈ validYears [earlyRecord, noneRecord, lateRecord] ∧
        b ∈ validYears [earlyRecord, noneRecord, lateRecord] ∧
        (∀ y ∈ validYears [earlyRecord, noneRecord, lateRecord], a ≤ y ∧ y ≤ b) ∧
        a ≤ b :=
  ⟨⟨earlyRecord, List.mem_cons_self _ _, ⟨5, 1950⟩, rfl⟩,
    (year_bounds [earlyRecord, noneRecord, lateRecord]).1
      ⟨earlyRecord, List.mem_cons_self _ _, ⟨5, 1950⟩, rfl⟩⟩

/-! ## Stripping and the color table -/

theorem dropWhile_append_of_all {p : Char → Bool} {w : List Char}
    (hw : ∀ c ∈ w, p c = true) (l : List Char) :
    (w ++ l).dropWhile p = l.dropWhile p := by
  induction w with
  | nil => rfl
  | cons c cs ih =>
    have hc : p c = true := hw c (List.mem_cons_self _ _)
    have hcs : ∀ x ∈ cs, p x = true := fun x hx => hw x (List.mem_cons_of_mem _ hx)
    simp only [List.cons_append, List.dropWhile_cons, hc, if_true]
    exact ih hcs

theorem dropWhile_all_nil {p : Char → Bool} {w : List Char}
    (hw : ∀ c ∈ w, p c = true) : w.dropWhile p = [] := by
  have h := dropWhile_append_of_all hw []
  simpa using h

theorem length_dropWhile_le (p : Char → Bool) (l : List Char) :
    (l.dropWhile p).length ≤ l.length := by
  have hsplit := List.takeWhile_append_dropWhile (p := p) (l := l)
  have hlen := congrArg List.length hsplit
  rw [List.length_append] at hlen
  omega

theorem dropWhile_eq_self_of_length {p : Char → Bool} {l : List Char}
    (h : (l.dropWhile p).length = l.length) : l.dropWhile p = l := by
  have hsplit := List.takeWhile_append_dropWhile (p := p) (l := l)
  have hlen := congrArg List.length hsplit
  rw [List.length_append] at hlen
  have htake : l.takeWhile p = [] := List.eq_nil_of_length_eq_zero (by omega)
  conv_rhs => rw [← hsplit]
  rw [htake, List.nil_append]

theorem stripList_sandwich {w1 w2 l : List Char}
    (h1 : ∀ c ∈ w1, isSpaceChar c = true) (h2 : ∀ c ∈ w2, isSpaceChar c = true)
    (hl : stripList l = l) : stripList (w1 ++ l ++ w2) = l := by
  have hd1 : l.dropWhile isSpaceChar = l := by
    apply dropWhile_eq_self_of_length
    have e1 := length_dropWhile_le isSpaceChar l
    have e2 := length_dropWhile_le isSpaceChar (l.dropWhile isSpaceChar).reverse
    have e3 := congrArg List.length hl
    simp only [stripList, List.length_reverse] at e3
    rw [List.length_reverse] at e2
    omega
  have hd2 : l.reverse.dropWhile isSpaceChar = l.reverse := by
    have h4 : (l.reverse.dropWhile isSpaceChar).reverse = l := by
      have h5 := hl
      simp only [stripList, hd1] at h5
      exact h5
    have h6 := congrArg List.reverse h4
    simpa using h6
  cases l with
  | nil =>
    show stripList (w1 ++ [] ++ w2) = []
    simp only [List.append_nil, List.nil_append, stripList]
    rw [dropWhile_append_of_all h1 w2, dropWhile_all_nil h2]
    rfl
  | cons a t =>
    have ha : isSpaceChar a = false := by
      cases hsp : isSpaceChar a with
      | false => rfl
      | true =>
        exfalso
        have hda : (a :: t).dropWhile isSpaceChar = t.dropWhile isSpaceChar := by
          simp [List.dropWhile_cons, hsp]
        rw [hd1] at hda
        have hlen := congrArg List.length hda
        have hle := length_dropWhile_le isSpaceChar t
        simp only [List.length_cons] at hlen
        omega
    have s1 : (w1 ++ (a :: t) ++ w2).dropWhile isSpaceChar = (a :: t) ++ w2 := by
      rw [List.append_assoc, dropWhile_append_of_all h1]
      simp [List.dropWhile_cons, ha]
    have s2 : ((a :: t) ++ w2).reverse.dropWhile isSpaceChar = (a :: t).reverse := by
      rw [List.reverse_append,
        dropWhile_append_of_all (fun c hc => h2 c (List.mem_reverse.mp hc))]
      exact hd2
    show stripList (w1 ++ (a :: t) ++ w2) = a :: t
    simp only [stripList, s1, s2, List.reverse_reverse]

/-- Every key of the color table is already stripped (no surrounding
whitespace): a successful lookup pins the key down to one of the seven
category strings, each of which is `strip`-invariant. -/
theorem lookupColor_some_strip {cat : String} {c : List Nat}
    (h : lookupColor cat = some c) : pyStrip cat = cat := by
  unfold lookupColor at h
  cases hf : color_map.find? (fun p => p.1 == cat) with
  | none => rw [hf] at h; exact Option.noConfusion h
  | some p =>
    have hp := List.find?_some hf
    have hmem := List.mem_of_find?_eq_some hf
    have hpc : p.1 = cat := by simpa using hp
    subst hpc
    fin_cases hmem <;> decide

/-- A record that survives the load (line 35 returned) has the color column of
line 57: the table lookup of its stripped `PTYPE`. -/
theorem normalize_ok_color {r : Record} {nr : NormRecord} (h : normalize r = .ok nr) :
    nr.color = lookupColor (pyStrip r.PTYPE) := by
  unfold normalize at h
  cases hc : convert_date r.SERV_INSTALL with
  | error e => rw [hc] at h; exact Except.noConfusion h
  | ok d =>
    rw [hc] at h
    rw [← Except.ok.inj h]

/-- C9: color assignment uses the whitespace-trimmed category — each
normalized record's color is the fixed table's entry for its stripped
`PTYPE`; a raw category that is a known category surrounded by whitespace
gets that category's color, and a stripped category outside the table gets
no color. -/
theorem color_assignment :
    (∀ (r : Record) (nr : NormRecord), normalize r = .ok nr →
      nr.color = lookupColor (pyStrip r.PTYPE)) ∧
    (∀ (w1 w2 : List Char) (cat : String) (c : List Nat) (r : Record)
      (nr : NormRecord),
      (∀ ch ∈ w1, isSpaceChar ch = true) → (∀ ch ∈ w2, isSpaceChar ch = true) →
      lookupColor cat = some c → r.PTYPE = ⟨w1 ++ cat.data ++ w2⟩ →
      normalize r = .ok nr → nr.color = some c) ∧
    (∀ (r : Record) (nr : NormRecord), normalize r = .ok nr →
      pyStrip r.PTYPE ∉ color_map.map Prod.fst → nr.color = none) := by
  refine ⟨fun r nr h => normalize_ok_color h, ?_, ?_⟩
  · intro w1 w2 cat c r nr hw1 hw2 hcat hr hnorm
    have hstrip := lookupColor_some_strip hcat
    have hdata : stripList cat.data = cat.data := congrArg String.data hstrip
    have hsand := stripList_sandwich hw1 hw2 hdata
    rw [normalize_ok_color hnorm, hr]
    show lookupColor ⟨stripList (w1 ++ cat.data ++ w2)⟩ = some c
    rw [hsand, show (String.mk cat.data) = cat from by cases cat; rfl]
    exact hcat
  · intro r nr hnorm hnot
    rw [normalize_ok_color hnorm]
    unfold lookupColor
    cases hf : color_map.find? (fun p => p.1 == pyStrip r.PTYPE) with
    | none => rfl
    | some p =>
      exfalso
      have hp := List.find?_some hf
      have hmem := List.mem_of_find?_eq_some hf
      have hpc : p.1 = pyStrip r.PTYPE := by simpa using hp
      exact hnot (hpc ▸ List.mem_map_of_mem Prod.fst hmem)

/-- The raw record behind the C9 witness: a `LEAD` category with surrounding
spaces. -/
def leadSpacedRecord : Record :=
  { SERV_INSTALL := "5/1987", PTYPE := " LEAD ", TAP_ADDRESS := "", STYP := "" }

/-- The normalized form of `leadSpacedRecord`. -/
def leadSpacedNorm : NormRecord :=
  { raw := leadSpacedRecord
    service_install_date := some ⟨5, 1987⟩
    PTYPE := "LEAD"
    color := some [128, 0, 128, 160] }

/-- Witness for C9: `" LEAD "` (surrounding spaces) is colored as `LEAD`. -/
theorem color_assignment_witness :
    normalize leadSpacedRecord = .ok leadSpacedNorm ∧
      leadSpacedNorm.color = some [128, 0, 128, 160] :=
  ⟨by decide, color_assignment.2.1 [' '] [' '] "LEAD" [128, 0, 128, 160]
    leadSpacedRecord leadSpacedNorm (by decide) (by decide) (by decide) rfl (by decide)⟩

end ServiceLines
